import Mathlib

/-!
Verification of the seat-inspect specification.

The repository ships only its packaging metadata (`setup.py`) as source; the
inspection engine itself (the `seat-inspect` script: entity fetcher, graph
builder, invariant checker) is not present in the tree.  Its behaviour is
therefore modelled here directly from the specification document, and the
claims about the engine are settled against that model.  The packaging claim
is settled against `setup.py` itself.
-/

namespace SeatInspect

/-- Modelled from the spec: the engine source is missing from the tree.
Type tag of an entity: Seat, Session or User (spec section 3). -/
inductive EntityType where
  | seat
  | session
  | user
deriving DecidableEq, Repr

/-- Modelled from the spec: the engine source is missing from the tree.
Attribute values are primitives: string, integer, boolean, or identifier
references to other entities (a single identifier or a list of identifiers),
spec section 3 "Entity". -/
inductive AttrValue where
  | str (s : String)
  | int (n : Int)
  | bool (b : Bool)
  | ref (id : String)
  | refs (ids : List String)
deriving DecidableEq, Repr

/-- The identifiers referenced by an attribute value; empty for
non-identifier-valued attributes. -/
def AttrValue.refIds : AttrValue → List String
  | .ref i => [i]
  | .refs l => l
  | _ => []

/-- Modelled from the spec: the engine source is missing from the tree.
A raw record as handed over by the Entity Fetcher: an identifier (possibly
missing, which is the `MalformedRecord` case) plus an attribute mapping,
spec section 4.1. -/
structure RawRecord where
  ident : Option String
  attrs : List (String × AttrValue)
deriving DecidableEq, Repr

/-- Modelled from the spec: the engine source is missing from the tree.
A graph node: node identity is the (type, identifier) pair, spec
section 4.2. -/
structure Node where
  type : EntityType
  ident : String
  attrs : List (String × AttrValue)
deriving DecidableEq, Repr

/-- Modelled from the spec: the engine source is missing from the tree.
A directed edge of the relationship graph.  `dangling` marks an edge whose
target identifier was not found among fetched entities (spec section 4.2
step 2); `derived` marks an inverse edge added in step 3 rather than one
natively reported by a raw record. -/
structure Edge where
  srcType : EntityType
  srcId : String
  attr : String
  tgtType : EntityType
  tgtId : String
  dangling : Bool
  derived : Bool
deriving DecidableEq, Repr

/-- Modelled from the spec: the engine source is missing from the tree.
The relationship graph produced by the Graph Builder. -/
structure Graph where
  nodes : List Node
  edges : List Edge
deriving DecidableEq, Repr

/-- Modelled from the spec: the engine source is missing from the tree.
The error taxonomy of spec section 7 (fatal kinds only; `PartialFetch` is a
warning, not an error). -/
inductive InspectError where
  | ServiceUnavailable
  | PermissionDenied
  | MalformedRecord
deriving DecidableEq, Repr

/-- Modelled from the spec: the engine source is missing from the tree.
Non-fatal warnings collected alongside findings (spec section 7). -/
inductive InspectWarning where
  | PartialFetch (id : String)
deriving DecidableEq, Repr

/-- Severity of a finding (spec section 4.3). -/
inductive Severity where
  | informational
  | warning
deriving DecidableEq, Repr

/-- Modelled from the spec: the engine source is missing from the tree.
A finding carries a severity, a human-readable category tag, and the node
identifiers implicated (spec section 4.3). -/
structure Finding where
  severity : Severity
  category : String
  nodes : List String
deriving DecidableEq, Repr

/-- Does node `n` have key `(t, i)`?  Node identity is the (type, identifier)
pair. -/
def keyEq (t : EntityType) (i : String) (n : Node) : Bool :=
  n.type == t && n.ident == i

/-- Modelled from the spec: the engine source is missing from the tree.
The target entity kind of an identifier-valued attribute, by the relation
names of spec section 3: a session references its seat and its owning user;
seat attributes (hosted sessions, active session) and user attributes
(owned sessions) reference sessions. -/
def refTargetType (t : EntityType) (attrName : String) : EntityType :=
  match t, attrName with
  | .session, "seat" => .seat
  | .session, _ => .user
  | .seat, _ => .session
  | .user, _ => .session

/-- The three raw collections tagged with the entity type each came from
(spec section 4.2 step 1: type assigned from which input collection). -/
def taggedRecords (ss st us : List RawRecord) : List (EntityType × RawRecord) :=
  ss.map (fun r => (.session, r)) ++ st.map (fun r => (.seat, r)) ++
    us.map (fun r => (.user, r))

/-- The node a tagged raw record becomes (the identifier default is never
used on the success path, where every record carries an identifier). -/
def nodeOfTagged (tr : EntityType × RawRecord) : Node :=
  ⟨tr.1, tr.2.ident.getD "", tr.2.attrs⟩

/-- Modelled from the spec: the engine source is missing from the tree.
Insert a node keyed by its (type, identifier) pair: if a node with that key
already exists it is replaced, otherwise the node is appended (spec
section 4.2 step 1, "one node per raw record, keyed by its identifier"). -/
def upsertNode (ns : List Node) (n : Node) : List Node :=
  if ns.any (keyEq n.type n.ident) then
    ns.map (fun m => if keyEq n.type n.ident m then n else m)
  else
    ns ++ [n]

/-- Step 1 of the Graph Builder: fold every tagged record into the keyed
node list. -/
def buildNodes (tagged : List (EntityType × RawRecord)) : List Node :=
  tagged.foldl (fun ns tr => upsertNode ns (nodeOfTagged tr)) []

/-- Modelled from the spec: the engine source is missing from the tree.
Step 2 of the Graph Builder for one tagged record: every identifier-valued
attribute is resolved against the set of created nodes; a target not found
among fetched entities yields an edge recorded as dangling, never a dropped
edge (spec section 4.2 step 2). -/
def edgesOfTagged (nodes : List Node) (tr : EntityType × RawRecord) : List Edge :=
  tr.2.attrs.flatMap (fun av =>
    av.2.refIds.map (fun tgt =>
      let tt := refTargetType tr.1 av.1
      { srcType := tr.1, srcId := tr.2.ident.getD "", attr := av.1,
        tgtType := tt, tgtId := tgt,
        dangling := !(nodes.any (keyEq tt tgt)), derived := false }))

/-- All natively reported edges of the graph. -/
def nativeEdges (tagged : List (EntityType × RawRecord)) (nodes : List Node) :
    List Edge :=
  tagged.flatMap (edgesOfTagged nodes)

/-- Modelled from the spec: the engine source is missing from the tree.
Step 3 of the Graph Builder: for each resolved native edge whose source is
not reported back by the target, add the inverse edge, marked `derived`, so
consistency checks can compare both directions (spec section 4.2 step 3). -/
def inverseEdges (native : List Edge) : List Edge :=
  native.filterMap (fun e =>
    if e.dangling then none
    else if native.any (fun f =>
        f.srcType == e.tgtType && f.srcId == e.tgtId &&
        f.tgtType == e.srcType && f.tgtId == e.srcId) then none
    else some { srcType := e.tgtType, srcId := e.tgtId, attr := "inverse",
                tgtType := e.srcType, tgtId := e.srcId,
                dangling := false, derived := true })

/-- The graph assembled from the three raw collections: keyed nodes, native
edges, and the derived inverse edges of step 3. -/
def builtGraph (ss st us : List RawRecord) : Graph :=
  ⟨buildNodes (taggedRecords ss st us),
   nativeEdges (taggedRecords ss st us) (buildNodes (taggedRecords ss st us)) ++
     inverseEdges (nativeEdges (taggedRecords ss st us)
       (buildNodes (taggedRecords ss st us)))⟩

/-- Modelled from the spec: the engine source is missing from the tree.
The Graph Builder contract of spec section 4.2:
`build(rawSessions, rawSeats, rawUsers) -> Graph`, failing with
`MalformedRecord` only when a raw record lacks its own identifier. -/
def build (ss st us : List RawRecord) : Except InspectError Graph :=
  if (taggedRecords ss st us).any (fun tr => tr.2.ident.isNone) then
    .error .MalformedRecord
  else
    .ok (builtGraph ss st us)

/-- Look a boolean attribute up on a node; a missing or non-boolean
attribute reads as false. -/
def boolAttr (n : Node) (a : String) : Bool :=
  match n.attrs.lookup a with
  | some (.bool b) => b
  | _ => false

/-- Whether a seat node supports several concurrent sessions. -/
def canMultiSession (n : Node) : Bool :=
  boolAttr n "can_multi_session"

/-- The sessions linked to a seat: targets of resolved seat-to-session
edges (native or derived), deduplicated. -/
def sessionsOn (g : Graph) (seatId : String) : List String :=
  ((g.edges.filter (fun e =>
      !e.dangling && e.srcType == .seat && e.srcId == seatId &&
      e.tgtType == .session)).map (fun e => e.tgtId)).dedup

/-- Whether some session node with this identifier is marked active. -/
def isActiveSessionId (g : Graph) (s : String) : Bool :=
  g.nodes.any (fun n => n.type == .session && n.ident == s && boolAttr n "active")

/-- The sessions on a seat that are marked active. -/
def activeSessionsOn (g : Graph) (seatId : String) : List String :=
  (sessionsOn g seatId).filter (isActiveSessionId g)

/-- The sessions owned by a user: targets of resolved user-to-session
edges, deduplicated. -/
def ownedSessions (g : Graph) (userId : String) : List String :=
  ((g.edges.filter (fun e =>
      !e.dangling && e.srcType == .user && e.srcId == userId &&
      e.tgtType == .session)).map (fun e => e.tgtId)).dedup

/-- Modelled from the spec: the engine source is missing from the tree.
Dangling-reference rule (spec section 4.3): every edge recorded as dangling
yields a finding identifying the referring and the missing entity. -/
def checkDangling (g : Graph) : List Finding :=
  (g.edges.filter (fun e => e.dangling)).map (fun e =>
    ⟨.warning, "dangling reference", [e.srcId, e.tgtId]⟩)

/-- Is this a natively reported, resolved seat/session edge lacking the
matching edge in the opposite direction? -/
def asymmetricEdge (g : Graph) (e : Edge) : Bool :=
  !e.derived && !e.dangling &&
  ((e.srcType == .seat && e.tgtType == .session) ||
   (e.srcType == .session && e.tgtType == .seat)) &&
  !(g.edges.any (fun f =>
      !f.derived && f.srcType == e.tgtType && f.srcId == e.tgtId &&
      f.tgtType == e.srcType && f.tgtId == e.srcId))

/-- Modelled from the spec: the engine source is missing from the tree.
Asymmetric-relation rule (spec section 4.3): a seat-to-session edge without
the matching session-to-seat edge, or vice versa, yields a finding. -/
def checkAsymmetric (g : Graph) : List Finding :=
  (g.edges.filter (asymmetricEdge g)).map (fun e =>
    ⟨.warning, "asymmetric relation", [e.srcId, e.tgtId]⟩)

/-- Does this seat node violate the single-active-session rule? -/
def multiActiveSeat (g : Graph) (n : Node) : Bool :=
  n.type == .seat && !canMultiSession n &&
    decide (2 ≤ (activeSessionsOn g n.ident).length)

/-- Modelled from the spec: the engine source is missing from the tree.
Multiple-active-sessions rule (spec section 4.3): more than one session
marked active on a seat that does not support multi-session yields one
finding naming the seat and the active sessions. -/
def checkMultiActive (g : Graph) : List Finding :=
  (g.nodes.filter (multiActiveSeat g)).map (fun n =>
    ⟨.warning, "multiple active sessions", n.ident :: activeSessionsOn g n.ident⟩)

/-- Modelled from the spec: the engine source is missing from the tree.
Orphaned-active-user rule (spec section 4.3): a user reported active with
zero owned sessions present in the graph, flagged as informational. -/
def checkOrphanedUser (g : Graph) : List Finding :=
  (g.nodes.filter (fun n =>
      n.type == .user && boolAttr n "active" && (ownedSessions g n.ident).isEmpty))
    |>.map (fun n => ⟨.informational, "orphaned active user", [n.ident]⟩)

/-- Modelled from the spec: the engine source is missing from the tree.
The Invariant Checker contract of spec section 4.3: a fixed, ordered battery
of rules, each scanning the graph in construction order. -/
def check (g : Graph) : List Finding :=
  checkDangling g ++ checkAsymmetric g ++ checkMultiActive g ++ checkOrphanedUser g

/-- The build-then-check pipeline on a fixed raw fetch result. -/
def buildAndCheck (ss st us : List RawRecord) :
    Except InspectError (Graph × List Finding) :=
  match build ss st us with
  | .error e => .error e
  | .ok g => .ok (g, check g)

/-- Does a finding carry this category tag? -/
def catIs (c : String) (f : Finding) : Bool :=
  f.category == c

/-- Is this a multiple-active-sessions finding for the given seat?  The rule
places the offending seat first in the implicated node list. -/
def isMultiActiveFindingFor (seatId : String) (f : Finding) : Bool :=
  catIs "multiple active sessions" f && f.nodes.head? == some seatId

/-- Is this an asymmetric-relation finding referencing both given nodes? -/
def isAsymFindingBoth (a b : String) (f : Finding) : Bool :=
  catIs "asymmetric relation" f &&
    (decide (a ∈ f.nodes) && decide (b ∈ f.nodes))

/-- Is this a dangling-reference finding identifying exactly this referring
entity and this missing entity? -/
def isDanglingFindingFor (src tgt : String) (f : Finding) : Bool :=
  catIs "dangling reference" f && f.nodes == [src, tgt]

/-- Modelled from the spec: the engine source is missing from the tree.
One remote object as the login/seat service exposes it: an identifier from
enumeration, a property bag from the detail query, and whether that detail
query fails for this object (spec sections 4.1 and 7). -/
structure RemoteObject where
  id : String
  props : List (String × AttrValue)
  detailFails : Bool
deriving DecidableEq, Repr

/-- Modelled from the spec: the engine source is missing from the tree.
The external login/seat service as the Entity Fetcher sees it (spec
section 4.1). -/
structure Service where
  sessions : List RemoteObject
  seats : List RemoteObject
  users : List RemoteObject
  unreachable : Bool
  enumDenied : Bool
deriving DecidableEq, Repr

/-- Fetch one object: a failing detail query degrades to a bare record
(identifier only, no attributes) plus a `PartialFetch` warning. -/
def fetchOne (o : RemoteObject) : RawRecord :=
  if o.detailFails then ⟨some o.id, []⟩ else ⟨some o.id, o.props⟩

/-- The `PartialFetch` warnings produced while fetching one collection. -/
def fetchWarnings (objs : List RemoteObject) : List InspectWarning :=
  objs.flatMap (fun o => if o.detailFails then [.PartialFetch o.id] else [])

/-- Modelled from the spec: the engine source is missing from the tree.
The Entity Fetcher contract of spec section 4.1: enumerate all sessions,
seats and users, failing with `ServiceUnavailable` or `PermissionDenied`
only at the top level; a per-object detail failure records a `PartialFetch`
warning and keeps the object as a bare record. -/
def fetchAll (svc : Service) :
    Except InspectError
      (List RawRecord × List RawRecord × List RawRecord × List InspectWarning) :=
  if svc.unreachable then .error .ServiceUnavailable
  else if svc.enumDenied then .error .PermissionDenied
  else .ok (svc.sessions.map fetchOne, svc.seats.map fetchOne,
            svc.users.map fetchOne,
            fetchWarnings svc.sessions ++ fetchWarnings svc.seats ++
              fetchWarnings svc.users)

/-- Modelled from the spec: the engine source is missing from the tree.
The single-shot pipeline of spec section 5: fetch, then build, then check;
warnings are reported alongside the findings, not in the error channel. -/
def runInspection (svc : Service) :
    Except InspectError (Graph × List Finding × List InspectWarning) :=
  match fetchAll svc with
  | .error e => .error e
  | .ok (ss, st, us, ws) =>
    match build ss st us with
    | .error e => .error e
    | .ok g => .ok (g, check g, ws)

/-- Is this warning a `PartialFetch` warning? -/
def isPartialFetch : InspectWarning → Bool
  | .PartialFetch _ => true

/-- The empty relationship graph. -/
def emptyGraph : Graph := ⟨[], []⟩

/-- The arguments of the one `setup()` invocation in `src/setup.py`,
embedded field by field. -/
structure SetupArgs where
  distName : String
  version : String
  description : String
  author : String
  authorEmail : String
  url : String
  scripts : List String
  dataFiles : List (String × List String)
deriving DecidableEq, Repr

/-- The literal `setup()` call of `src/setup.py`. -/
def seatInspectSetup : SetupArgs :=
  { distName := "seat-inspect"
    version := "1.0"
    description := "Understand and troubleshoot the login/seat system."
    author := "Enrico Zini"
    authorEmail := "enrico@debian.org"
    url := "https://github.com/spanezz/seat-inspect"
    scripts := ["seat-inspect"]
    dataFiles := [("share/doc/seat-inspect", ["seat-inspect.html"]),
                  ("share/man/man1", ["seat-inspect.1"])] }

/-- The collection of the input a given entity type is read from. -/
def collectionOf (t : EntityType) (ss st us : List RawRecord) : List RawRecord :=
  match t with
  | .session => ss
  | .seat => st
  | .user => us

/-- How many identifier references an attribute mapping holds to a given
target identifier. -/
def recordRefCount (r : RawRecord) (tgt : String) : Nat :=
  (r.attrs.flatMap (fun av => av.2.refIds)).countP (fun x => x == tgt)

/-- How many identifier references the whole raw input holds from records
carrying identifier `src` to target identifier `tgt`. -/
def refCountFrom (ss st us : List RawRecord) (src tgt : String) : Nat :=
  ((taggedRecords ss st us).map (fun tr =>
    if tr.2.ident == some src then recordRefCount tr.2 tgt else 0)).sum

/-- The referential-closure property for one raw record: every identifier
reference in its attributes is represented by an edge that either resolves
to an existing node or is marked dangling. -/
def recordRefsKept (g : Graph) (t : EntityType) (r : RawRecord) : Prop :=
  ∀ i a v tgt, r.ident = some i → (a, v) ∈ r.attrs → tgt ∈ v.refIds →
    ∃ e, e ∈ g.edges ∧ e.derived = false ∧ e.srcType = t ∧ e.srcId = i ∧
      e.attr = a ∧ e.tgtId = tgt ∧
      (e.dangling = true ∨ g.nodes.any (keyEq e.tgtType e.tgtId) = true)

-- ## Concrete fixtures used by witness theorems

/-- A session record referencing the never-fetched seat "seat0". -/
def wSession : RawRecord := ⟨some "s1", [("seat", .ref "seat0")]⟩

/-- The graph `build` produces from `[wSession]` alone: one session node and
one dangling edge to the missing seat. -/
def wGraph : Graph :=
  ⟨[⟨.session, "s1", [("seat", .ref "seat0")]⟩],
   [⟨.session, "s1", "seat", .seat, "seat0", true, false⟩]⟩

/-- A session record and a seat record sharing the identifier "s1". -/
def wSessionRec : RawRecord := ⟨some "s1", []⟩

/-- Seat record with the same identifier as `wSessionRec`. -/
def wSeatRec : RawRecord := ⟨some "s1", []⟩

/-- The graph `build` produces from those two records: two distinct nodes
keyed by (type, identifier). -/
def wPairGraph : Graph :=
  ⟨[⟨.session, "s1", []⟩, ⟨.seat, "s1", []⟩], []⟩

/-- A session record that does not list any seat. -/
def wAsymSession : RawRecord := ⟨some "sX", []⟩

/-- A seat record listing session "sX", which does not list it back. -/
def wAsymSeat : RawRecord := ⟨some "seatY", [("sessions", .refs ["sX"])]⟩

/-- The graph `build` produces from those two records: a resolved native
seat-to-session edge plus the derived inverse added in step 3. -/
def wAsymGraph : Graph :=
  ⟨[⟨.session, "sX", []⟩, ⟨.seat, "seatY", [("sessions", .refs ["sX"])]⟩],
   [⟨.seat, "seatY", "sessions", .session, "sX", false, false⟩,
    ⟨.session, "sX", "inverse", .seat, "seatY", false, true⟩]⟩

/-- A graph with a single-session seat hosting two active sessions. -/
def wMAGraph : Graph :=
  ⟨[⟨.seat, "seat1", [("can_multi_session", .bool false)]⟩,
    ⟨.session, "sA", [("active", .bool true)]⟩,
    ⟨.session, "sB", [("active", .bool true)]⟩],
   [⟨.seat, "seat1", "sessions", .session, "sA", false, false⟩,
    ⟨.seat, "seat1", "sessions", .session, "sB", false, false⟩]⟩

/-- A remote session whose detail query succeeds. -/
def wObjA : RemoteObject := ⟨"s1", [("active", .bool true)], false⟩

/-- A second remote session whose detail query succeeds. -/
def wObjB : RemoteObject := ⟨"s2", [("user", .ref "u1")], false⟩

/-- A remote session whose detail query fails. -/
def wObjC : RemoteObject := ⟨"s3", [("active", .bool true)], true⟩

/-- A reachable service exposing three sessions, one of which fails its
detail query. -/
def wService : Service := ⟨[wObjA, wObjB, wObjC], [], [], false, false⟩

-- ## Helper lemmas

theorem countP_congr_mem {α : Type} {p q : α → Bool} {l : List α}
    (h : ∀ a ∈ l, p a = q a) : l.countP p = l.countP q := by
  induction l with
  | nil => rfl
  | cons x xs ih =>
    rw [List.countP_cons, List.countP_cons, h x (List.mem_cons_self x xs),
      ih (fun a ha => h a (List.mem_cons_of_mem x ha))]

theorem countP_eq_one_unique {α : Type} {p : α → Bool} :
    ∀ {l : List α}, l.countP p = 1 → ∀ {a b : α}, a ∈ l → p a = true →
      b ∈ l → p b = true → a = b
  | [], _, a, _, ha, _, _, _ => absurd ha (List.not_mem_nil a)
  | x :: xs, h, a, b, ha, hpa, hb, hpb => by
    rw [List.countP_cons] at h
    by_cases hx : p x = true
    · rw [if_pos hx] at h
      have hxs : xs.countP p = 0 := by omega
      have hnone := List.countP_eq_zero.mp hxs
      rcases List.mem_cons.mp ha with ha' | ha'
      · rcases List.mem_cons.mp hb with hb' | hb'
        · rw [ha', hb']
        · exact absurd hpb (hnone b hb')
      · exact absurd hpa (hnone a ha')
    · rw [if_neg hx] at h
      rcases List.mem_cons.mp ha with ha' | ha'
      · exact absurd (ha' ▸ hpa) hx
      · rcases List.mem_cons.mp hb with hb' | hb'
        · exact absurd (hb' ▸ hpb) hx
        · exact countP_eq_one_unique (by omega) ha' hpa hb' hpb

theorem countP_and_of_unique {α : Type} {p q : α → Bool} {l : List α}
    (h : l.countP p = 1) {e : α} (he : e ∈ l) (hpe : p e = true)
    (hqe : q e = true) : l.countP (fun a => p a && q a) = 1 := by
  have hcong : l.countP (fun a => p a && q a) = l.countP p := by
    apply countP_congr_mem
    intro a ha
    by_cases hpa : p a = true
    · have : a = e := countP_eq_one_unique h ha hpa he hpe
      subst this
      simp [hpa, hqe]
    · simp [Bool.eq_false_iff.mpr hpa]
  rw [hcong, h]

theorem sum_map_ite_countP {α : Type} (p : α → Bool) (l : List α) :
    (l.map (fun a => if p a then 1 else 0)).sum = l.countP p := by
  induction l with
  | nil => rfl
  | cons x xs ih =>
    rw [List.map_cons, List.sum_cons, List.countP_cons, ih]
    by_cases hx : p x = true
    · simp only [if_pos hx]; omega
    · simp only [if_neg hx]; omega

theorem any_congr_mem {α : Type} {p q : α → Bool} {l : List α}
    (h : ∀ a ∈ l, p a = q a) : l.any p = l.any q := by
  induction l with
  | nil => rfl
  | cons x xs ih =>
    rw [List.any_cons, List.any_cons, h x (List.mem_cons_self x xs),
      ih (fun a ha => h a (List.mem_cons_of_mem x ha))]

theorem any_map_general {α β : Type} (f : α → β) (p : β → Bool) (l : List α) :
    (l.map f).any p = l.any (fun a => p (f a)) := by
  induction l with
  | nil => rfl
  | cons x xs ih => rw [List.map_cons, List.any_cons, List.any_cons, ih]

theorem keyEq_nodeOfTagged (t : EntityType) (i : String)
    (tr : EntityType × RawRecord) :
    keyEq t i (nodeOfTagged tr) = (tr.1 == t && tr.2.ident.getD "" == i) := rfl

theorem keyEq_self (n : Node) : keyEq n.type n.ident n = true := by
  simp [keyEq]

theorem keyEq_true_iff (t : EntityType) (i : String) (n : Node) :
    keyEq t i n = true ↔ n.type = t ∧ n.ident = i := by
  simp [keyEq]

theorem countP_upsert (ns : List Node) (n : Node) (t : EntityType) (i : String)
    (h : ns.countP (keyEq t i) ≤ 1) :
    (upsertNode ns n).countP (keyEq t i) =
      if keyEq t i n then 1 else ns.countP (keyEq t i) := by
  unfold upsertNode
  by_cases hk : keyEq t i n = true
  · obtain ⟨ht, hi⟩ := (keyEq_true_iff t i n).mp hk
    subst ht; subst hi
    rw [if_pos hk]
    by_cases hany : ns.any (keyEq n.type n.ident) = true
    · rw [if_pos hany]
      have hcong : (ns.map (fun m => if keyEq n.type n.ident m then n else m)).countP
          (keyEq n.type n.ident) = ns.countP (keyEq n.type n.ident) := by
        rw [List.countP_map]
        apply countP_congr_mem
        intro m hm
        by_cases hkm : keyEq n.type n.ident m = true
        · simp [Function.comp, hkm, keyEq_self]
        · simp [Function.comp, hkm]
      rw [hcong]
      obtain ⟨m, hm, hpm⟩ := List.any_eq_true.mp hany
      have hpos : 0 < ns.countP (keyEq n.type n.ident) :=
        List.countP_pos_iff.mpr ⟨m, hm, hpm⟩
      omega
    · rw [if_neg hany, List.countP_append]
      have h0 : ns.countP (keyEq n.type n.ident) = 0 := by
        rw [List.countP_eq_zero]
        intro m hm hpm
        exact hany (List.any_eq_true.mpr ⟨m, hm, hpm⟩)
      simp [h0, List.countP_cons, keyEq_self]
  · rw [if_neg hk]
    by_cases hany : ns.any (keyEq n.type n.ident) = true
    · rw [if_pos hany, List.countP_map]
      apply countP_congr_mem
      intro m hm
      by_cases hkm : keyEq n.type n.ident m = true
      · obtain ⟨ht', hi'⟩ := (keyEq_true_iff _ _ _).mp hkm
        have hsame : keyEq t i m = keyEq t i n := by
          simp [keyEq, ht', hi']
        simp [Function.comp, hkm, hsame]
      · simp [Function.comp, hkm]
    · rw [if_neg hany, List.countP_append]
      simp [List.countP_cons, hk]

theorem countP_buildNodes_loop :
    ∀ (tagged : List (EntityType × RawRecord)) (acc : List Node)
      (t : EntityType) (i : String), acc.countP (keyEq t i) ≤ 1 →
      (tagged.foldl (fun ns tr => upsertNode ns (nodeOfTagged tr)) acc).countP
          (keyEq t i) =
        if tagged.any (fun tr => tr.1 == t && tr.2.ident.getD "" == i) then 1
        else acc.countP (keyEq t i)
  | [], acc, t, i, _ => by simp
  | tr :: rest, acc, t, i, h => by
    rw [List.foldl_cons, List.any_cons]
    have hup := countP_upsert acc (nodeOfTagged tr) t i h
    have hle : (upsertNode acc (nodeOfTagged tr)).countP (keyEq t i) ≤ 1 := by
      rw [hup]; split
      · omega
      · exact h
    rw [countP_buildNodes_loop rest _ t i hle, hup, keyEq_nodeOfTagged]
    by_cases h1 : (tr.1 == t && tr.2.ident.getD "" == i) = true
    · by_cases h2 : rest.any (fun tr => tr.1 == t && tr.2.ident.getD "" == i) = true
      · simp [h1, h2]
      · simp [h1, h2]
    · by_cases h2 : rest.any (fun tr => tr.1 == t && tr.2.ident.getD "" == i) = true
      · simp [h1, h2]
      · simp [h1, h2]

theorem build_ok_inv (ss st us : List RawRecord) (g : Graph)
    (h : build ss st us = .ok g) :
    (taggedRecords ss st us).any (fun tr => tr.2.ident.isNone) = false ∧
    g.nodes = buildNodes (taggedRecords ss st us) ∧
    g.edges =
      nativeEdges (taggedRecords ss st us) (buildNodes (taggedRecords ss st us)) ++
        inverseEdges (nativeEdges (taggedRecords ss st us)
          (buildNodes (taggedRecords ss st us))) := by
  unfold build at h
  split at h
  · exact absurd h (by simp)
  · next hcond =>
      injection h with h'
      refine ⟨by simpa using hcond, ?_, ?_⟩
      · rw [← h']
        rfl
      · rw [← h']
        rfl

theorem tagged_any_none_eq (ss st us : List RawRecord) :
    (taggedRecords ss st us).any (fun tr => tr.2.ident.isNone) =
      (ss ++ st ++ us).any (fun r => r.ident.isNone) := by
  unfold taggedRecords
  rw [List.any_append, List.any_append, List.any_append, List.any_append,
    any_map_general, any_map_general, any_map_general]

theorem any_false_of_ne {i : String} (l : List RawRecord) (t₁ t₂ : EntityType)
    (hne : t₁ ≠ t₂) :
    l.any (fun r => (t₁ == t₂) && (r.ident.getD "" == i)) = false := by
  rw [List.any_eq_false]
  intro r _
  simp [hne]

theorem any_ident_conv {i : String} (l : List RawRecord)
    (hl : ∀ r ∈ l, r.ident.isNone = false) :
    l.any (fun r => r.ident.getD "" == i) = l.any (fun r => r.ident == some i) := by
  apply any_congr_mem
  intro r hr
  cases hrid : r.ident with
  | none => exact absurd (hrid ▸ hl r hr) (by simp)
  | some j => simp [hrid]

theorem tagged_any_key_eq (ss st us : List RawRecord) (t : EntityType)
    (i : String) (hsome : ∀ r ∈ ss ++ st ++ us, r.ident.isNone = false) :
    (taggedRecords ss st us).any
        (fun tr => tr.1 == t && tr.2.ident.getD "" == i) =
      (collectionOf t ss st us).any (fun r => r.ident == some i) := by
  have hss : ∀ r ∈ ss, r.ident.isNone = false := fun r hr =>
    hsome r (List.mem_append.mpr (Or.inl (List.mem_append.mpr (Or.inl hr))))
  have hst : ∀ r ∈ st, r.ident.isNone = false := fun r hr =>
    hsome r (List.mem_append.mpr (Or.inl (List.mem_append.mpr (Or.inr hr))))
  have hus : ∀ r ∈ us, r.ident.isNone = false := fun r hr =>
    hsome r (List.mem_append.mpr (Or.inr hr))
  unfold taggedRecords
  rw [List.any_append, List.any_append, any_map_general, any_map_general,
    any_map_general]
  show (ss.any (fun r => (EntityType.session == t) && (r.ident.getD "" == i)) ||
      st.any (fun r => (EntityType.seat == t) && (r.ident.getD "" == i)) ||
      us.any (fun r => (EntityType.user == t) && (r.ident.getD "" == i))) = _
  cases t with
  | session =>
    rw [any_false_of_ne st .seat .session (by simp),
      any_false_of_ne us .user .session (by simp)]
    have : ss.any (fun r => (EntityType.session == .session) &&
        (r.ident.getD "" == i)) = ss.any (fun r => r.ident.getD "" == i) := by
      apply any_congr_mem; intro r _; simp
    rw [this, any_ident_conv ss hss]
    simp [collectionOf]
  | seat =>
    rw [any_false_of_ne ss .session .seat (by simp),
      any_false_of_ne us .user .seat (by simp)]
    have : st.any (fun r => (EntityType.seat == .seat) &&
        (r.ident.getD "" == i)) = st.any (fun r => r.ident.getD "" == i) := by
      apply any_congr_mem; intro r _; simp
    rw [this, any_ident_conv st hst]
    simp [collectionOf]
  | user =>
    rw [any_false_of_ne ss .session .user (by simp),
      any_false_of_ne st .seat .user (by simp)]
    have : us.any (fun r => (EntityType.user == .user) &&
        (r.ident.getD "" == i)) = us.any (fun r => r.ident.getD "" == i) := by
      apply any_congr_mem; intro r _; simp
    rw [this, any_ident_conv us hus]
    simp [collectionOf]

-- ## Claim theorems

/-- C9: for the input with zero seats, zero sessions and zero users, build
yields an empty graph (no nodes and no edges) and check on that graph yields
an empty finding list. -/
theorem empty_system_no_findings :
    build [] [] [] = .ok emptyGraph ∧ check emptyGraph = [] :=
  ⟨rfl, rfl⟩

/-- C10: the package setup invocation declares the distribution name
"seat-inspect" at version "1.0", installs exactly one executable script,
named "seat-inspect", and installs exactly two data files: the HTML
documentation under share/doc/seat-inspect and the man page under
share/man/man1. -/
theorem setup_packaging_metadata :
    seatInspectSetup.distName = "seat-inspect" ∧
    seatInspectSetup.version = "1.0" ∧
    seatInspectSetup.scripts = ["seat-inspect"] ∧
    seatInspectSetup.scripts.length = 1 ∧
    seatInspectSetup.dataFiles =
      [("share/doc/seat-inspect", ["seat-inspect.html"]),
       ("share/man/man1", ["seat-inspect.1"])] ∧
    (seatInspectSetup.dataFiles.flatMap Prod.snd).length = 2 := by
  refine ⟨rfl, rfl, rfl, rfl, rfl, rfl⟩

/-- C2: for a fixed raw fetch result, build then check run twice produce
identical graphs and identical ordered finding lists; in particular the
checker run twice on the same graph yields the same ordered finding list. -/
theorem build_check_deterministic (ss st us : List RawRecord)
    (g₁ g₂ : Graph) (f₁ f₂ : List Finding) (g : Graph) (c₁ c₂ : List Finding)
    (h₁ : buildAndCheck ss st us = .ok (g₁, f₁))
    (h₂ : buildAndCheck ss st us = .ok (g₂, f₂))
    (h₃ : check g = c₁) (h₄ : check g = c₂) :
    g₁ = g₂ ∧ f₁ = f₂ ∧ c₁ = c₂ := by
  have h := h₁.symm.trans h₂
  simp only [Except.ok.injEq, Prod.mk.injEq] at h
  exact ⟨h.1, h.2, h₃.symm.trans h₄⟩

/-- Witness for C2 at a concrete input: the empty fetch result and the
empty graph. -/
theorem build_check_deterministic_witness :
    emptyGraph = emptyGraph ∧ ([] : List Finding) = [] ∧
      ([] : List Finding) = [] :=
  build_check_deterministic [] [] [] emptyGraph emptyGraph [] [] emptyGraph
    [] [] rfl rfl rfl rfl

theorem build_some_ident (ss st us : List RawRecord) (g : Graph)
    (h : build ss st us = .ok g) : ∀ r ∈ ss ++ st ++ us, r.ident.isNone = false := by
  obtain ⟨hno, _, _⟩ := build_ok_inv ss st us g h
  have hconcat : (ss ++ st ++ us).any (fun r => r.ident.isNone) = false := by
    have hb := tagged_any_none_eq ss st us
    rw [hno] at hb
    exact hb.symm
  intro r hr
  have := List.any_eq_false.mp hconcat r hr
  revert this
  cases r.ident.isNone
  · intro _; rfl
  · intro hcontra; exact absurd rfl hcontra

theorem build_nodes_count (ss st us : List RawRecord) (g : Graph)
    (h : build ss st us = .ok g) (t : EntityType) (i : String) :
    g.nodes.countP (keyEq t i) =
      if (collectionOf t ss st us).any (fun r => r.ident == some i) then 1
      else 0 := by
  obtain ⟨_, hnodes, _⟩ := build_ok_inv ss st us g h
  have hsome := build_some_ident ss st us g h
  rw [hnodes]
  unfold buildNodes
  rw [countP_buildNodes_loop _ [] t i (by simp), List.countP_nil,
    tagged_any_key_eq ss st us t i hsome]

/-- C7: for every input on which build succeeds, the graph holds exactly one
node per input identifier, and node identity is the (type, identifier) pair:
counting nodes keyed by a (type, identifier) pair gives one exactly when the
corresponding input collection fetched that identifier, so a Session and a
Seat sharing an identifier yield two distinct nodes and no merging or
deduplication happens across entity kinds. -/
theorem one_node_per_identifier (ss st us : List RawRecord) (g : Graph)
    (h : build ss st us = .ok g) (t : EntityType) (i : String) :
    g.nodes.countP (keyEq t i) =
      if (collectionOf t ss st us).any (fun r => r.ident == some i) then 1
      else 0 :=
  build_nodes_count ss st us g h t i

/-- Witness for C7: a session record and a seat record sharing identifier
"s1" produce two distinct nodes, one per (type, identifier) pair. -/
theorem one_node_per_identifier_witness :
    wPairGraph.nodes.countP (keyEq .session "s1") =
        (if ([wSessionRec] : List RawRecord).any
          (fun r => r.ident == some "s1") then 1 else 0) ∧
    wPairGraph.nodes.countP (keyEq .seat "s1") =
        (if ([wSeatRec] : List RawRecord).any
          (fun r => r.ident == some "s1") then 1 else 0) :=
  ⟨one_node_per_identifier [wSessionRec] [wSeatRec] [] wPairGraph rfl
      .session "s1",
   one_node_per_identifier [wSessionRec] [wSeatRec] [] wPairGraph rfl
      .seat "s1"⟩

/-- C6: build fails with MalformedRecord exactly when some raw input record
lacks its own identifier; when every record carries one, build succeeds (all
other irregularities become dangling-edge markers, per the
referential-closure theorem, not failures). -/
theorem build_fails_iff_missing_ident (ss st us : List RawRecord) :
    (build ss st us = .error .MalformedRecord ↔
      ∃ r, r ∈ ss ++ st ++ us ∧ r.ident = none) ∧
    ((∀ r ∈ ss ++ st ++ us, r.ident ≠ none) → ∃ g, build ss st us = .ok g) := by
  have hb := tagged_any_none_eq ss st us
  constructor
  · constructor
    · intro h
      unfold build at h
      split at h
      · next hcond =>
          rw [hb] at hcond
          obtain ⟨r, hr, hrn⟩ := List.any_eq_true.mp hcond
          exact ⟨r, hr, Option.isNone_iff_eq_none.mp hrn⟩
      · exact absurd h (by simp)
    · rintro ⟨r, hr, hrn⟩
      have hcond : (taggedRecords ss st us).any
          (fun tr => tr.2.ident.isNone) = true := by
        rw [hb]
        exact List.any_eq_true.mpr ⟨r, hr, by rw [hrn]; rfl⟩
      unfold build
      rw [if_pos hcond]
  · intro hno
    have hcond : (taggedRecords ss st us).any
        (fun tr => tr.2.ident.isNone) = false := by
      rw [hb, List.any_eq_false]
      intro r hr hcontra
      exact hno r hr (Option.isNone_iff_eq_none.mp hcontra)
    refine ⟨builtGraph ss st us, ?_⟩
    unfold build
    rw [if_neg (by simp [hcond])]

/-- Witness for C6: a record with a missing identifier makes build fail, and
an identifier-carrying input makes it succeed. -/
theorem build_fails_iff_missing_ident_witness :
    build [⟨none, []⟩] [] [] = .error .MalformedRecord ∧
    ∃ g, build [wSession] [] [] = .ok g :=
  ⟨(build_fails_iff_missing_ident [⟨none, []⟩] [] []).1.mpr
      ⟨⟨none, []⟩, by simp, rfl⟩,
   (build_fails_iff_missing_ident [wSession] [] []).2
      (by intro r hr; simp at hr; rw [hr]; simp [wSession])⟩

/-- Every identifier reference of a tagged record of a successfully built
graph is represented by a native edge with the expected source, attribute
and target, whose dangling marker is set exactly when the target node is
missing from the graph. -/
theorem edge_exists_of_tagged (ss st us : List RawRecord) (g : Graph)
    (h : build ss st us = .ok g) (tr : EntityType × RawRecord)
    (htr : tr ∈ taggedRecords ss st us) (i : String) (a : String)
    (v : AttrValue) (tgt : String) (hi : tr.2.ident = some i)
    (hav : (a, v) ∈ tr.2.attrs) (htgt : tgt ∈ v.refIds) :
    ∃ e, e ∈ g.edges ∧ e.derived = false ∧ e.srcType = tr.1 ∧ e.srcId = i ∧
      e.attr = a ∧ e.tgtType = refTargetType tr.1 a ∧ e.tgtId = tgt ∧
      e.dangling = !(g.nodes.any (keyEq (refTargetType tr.1 a) tgt)) := by
  obtain ⟨_, hnodes, hedges⟩ := build_ok_inv ss st us g h
  refine ⟨{ srcType := tr.1, srcId := i, attr := a,
            tgtType := refTargetType tr.1 a, tgtId := tgt,
            dangling := !((buildNodes (taggedRecords ss st us)).any
              (keyEq (refTargetType tr.1 a) tgt)), derived := false },
          ?_, rfl, rfl, rfl, rfl, rfl, rfl, ?_⟩
  · rw [hedges]
    apply List.mem_append.mpr
    left
    unfold nativeEdges
    apply List.mem_flatMap.mpr
    refine ⟨tr, htr, ?_⟩
    unfold edgesOfTagged
    apply List.mem_flatMap.mpr
    refine ⟨(a, v), hav, ?_⟩
    apply List.mem_map.mpr
    refine ⟨tgt, htgt, ?_⟩
    simp [hi]
  · rw [hnodes]

/-- C1: referential closure — for every built graph, every identifier-valued
attribute of every raw input record is kept as an edge: either the edge
resolves to a node existing among the fetched entities, or it is present and
marked dangling; no edge is silently dropped. -/
theorem referential_closure (ss st us : List RawRecord) (g : Graph)
    (h : build ss st us = .ok g) :
    (∀ r ∈ ss, recordRefsKept g .session r) ∧
    (∀ r ∈ st, recordRefsKept g .seat r) ∧
    (∀ r ∈ us, recordRefsKept g .user r) := by
  have main : ∀ tr ∈ taggedRecords ss st us, recordRefsKept g tr.1 tr.2 := by
    intro tr htr i a v tgt hi hav htgt
    obtain ⟨e, he, hd, hsrcT, hsrcI, hattr, htgtT, htgtI, hdang⟩ :=
      edge_exists_of_tagged ss st us g h tr htr i a v tgt hi hav htgt
    refine ⟨e, he, hd, hsrcT, hsrcI, hattr, htgtI, ?_⟩
    by_cases hany : g.nodes.any (keyEq e.tgtType e.tgtId) = true
    · exact Or.inr hany
    · left
      rw [hdang]
      have hf : g.nodes.any (keyEq (refTargetType tr.1 a) tgt) = false := by
        rw [← htgtT, ← htgtI]
        revert hany
        cases g.nodes.any (keyEq e.tgtType e.tgtId)
        · intro _; rfl
        · intro hcontra; exact absurd rfl hcontra
      rw [hf]
      rfl
  refine ⟨fun r hr => ?_, fun r hr => ?_, fun r hr => ?_⟩
  · exact main (.session, r)
      (List.mem_append.mpr (Or.inl (List.mem_append.mpr (Or.inl
        (List.mem_map.mpr ⟨r, hr, rfl⟩)))))
  · exact main (.seat, r)
      (List.mem_append.mpr (Or.inl (List.mem_append.mpr (Or.inr
        (List.mem_map.mpr ⟨r, hr, rfl⟩)))))
  · exact main (.user, r)
      (List.mem_append.mpr (Or.inr (List.mem_map.mpr ⟨r, hr, rfl⟩)))

/-- Witness for C1: the session referencing the missing seat "seat0" keeps
its reference as a dangling edge. -/
theorem referential_closure_witness :
    (∀ r ∈ ([wSession] : List RawRecord), recordRefsKept wGraph .session r) ∧
    (∀ r ∈ ([] : List RawRecord), recordRefsKept wGraph .seat r) ∧
    (∀ r ∈ ([] : List RawRecord), recordRefsKept wGraph .user r) :=
  referential_closure [wSession] [] [] wGraph rfl

theorem checkDangling_category (g : Graph) :
    ∀ f ∈ checkDangling g, f.category = "dangling reference" := by
  intro f hf
  unfold checkDangling at hf
  obtain ⟨e, _, hfe⟩ := List.mem_map.mp hf
  rw [← hfe]

theorem checkAsymmetric_category (g : Graph) :
    ∀ f ∈ checkAsymmetric g, f.category = "asymmetric relation" := by
  intro f hf
  unfold checkAsymmetric at hf
  obtain ⟨e, _, hfe⟩ := List.mem_map.mp hf
  rw [← hfe]

theorem checkMultiActive_category (g : Graph) :
    ∀ f ∈ checkMultiActive g, f.category = "multiple active sessions" := by
  intro f hf
  unfold checkMultiActive at hf
  obtain ⟨n, _, hfe⟩ := List.mem_map.mp hf
  rw [← hfe]

theorem checkOrphanedUser_category (g : Graph) :
    ∀ f ∈ checkOrphanedUser g, f.category = "orphaned active user" := by
  intro f hf
  unfold checkOrphanedUser at hf
  obtain ⟨n, _, hfe⟩ := List.mem_map.mp hf
  rw [← hfe]

theorem catIs_eq {c : String} {f : Finding} (h : catIs c f = true) :
    f.category = c := by
  simpa [catIs] using h

theorem countP_catAnd_zero {c c' : String} {l : List Finding}
    {q : Finding → Bool} (hne : c' ≠ c) (hl : ∀ f ∈ l, f.category = c') :
    l.countP (fun f => catIs c f && q f) = 0 := by
  rw [List.countP_eq_zero]
  intro f hf h
  obtain ⟨h1, _⟩ := Bool.and_eq_true_iff.mp h
  exact hne ((hl f hf).symm.trans (catIs_eq h1))

theorem check_countP_decompose (g : Graph) (p : Finding → Bool) :
    (check g).countP p =
      (checkDangling g).countP p + (checkAsymmetric g).countP p +
        (checkMultiActive g).countP p + (checkOrphanedUser g).countP p := by
  unfold check
  rw [List.countP_append, List.countP_append, List.countP_append]

theorem bool_eq_of_iff {a b : Bool} (h : a = true ↔ b = true) : a = b := by
  cases a <;> cases b <;> simp_all

theorem sum_map_congr_mem {α : Type} {f f' : α → Nat} {l : List α}
    (h : ∀ a ∈ l, f a = f' a) : (l.map f).sum = (l.map f').sum := by
  induction l with
  | nil => rfl
  | cons x xs ih =>
    rw [List.map_cons, List.map_cons, List.sum_cons, List.sum_cons,
      h x (List.mem_cons_self x xs),
      ih (fun a ha => h a (List.mem_cons_of_mem x ha))]

theorem mem_tagged_snd {ss st us : List RawRecord}
    {tr : EntityType × RawRecord} (h : tr ∈ taggedRecords ss st us) :
    tr.2 ∈ ss ++ st ++ us := by
  unfold taggedRecords at h
  rcases List.mem_append.mp h with h1 | h2
  · rcases List.mem_append.mp h1 with ha | hb
    · obtain ⟨r, hr, hre⟩ := List.mem_map.mp ha
      rw [← hre]
      exact List.mem_append.mpr (Or.inl (List.mem_append.mpr (Or.inl hr)))
    · obtain ⟨r, hr, hre⟩ := List.mem_map.mp hb
      rw [← hre]
      exact List.mem_append.mpr (Or.inl (List.mem_append.mpr (Or.inr hr)))
  · obtain ⟨r, hr, hre⟩ := List.mem_map.mp h2
    rw [← hre]
    exact List.mem_append.mpr (Or.inr hr)

theorem nativeEdges_derived (tagged : List (EntityType × RawRecord))
    (nodes : List Node) : ∀ e ∈ nativeEdges tagged nodes, e.derived = false := by
  intro e he
  unfold nativeEdges at he
  obtain ⟨tr, _, he2⟩ := List.mem_flatMap.mp he
  unfold edgesOfTagged at he2
  obtain ⟨av, _, he3⟩ := List.mem_flatMap.mp he2
  obtain ⟨tgt, _, hfe⟩ := List.mem_map.mp he3
  rw [← hfe]

theorem inverseEdges_mem {l : List Edge} {e : Edge} (h : e ∈ inverseEdges l) :
    e.derived = true ∧ e.dangling = false := by
  unfold inverseEdges at h
  obtain ⟨a, _, hfa⟩ := List.mem_filterMap.mp h
  split at hfa
  · exact absurd hfa (by simp)
  · split at hfa
    · exact absurd hfa (by simp)
    · injection hfa with he
      rw [← he]
      exact ⟨rfl, rfl⟩

theorem edges_dangling_not_derived (ss st us : List RawRecord) (g : Graph)
    (h : build ss st us = .ok g) :
    ∀ e ∈ g.edges, e.dangling = true → e.derived = false := by
  obtain ⟨_, _, hedges⟩ := build_ok_inv ss st us g h
  intro e he hd
  rw [hedges] at he
  rcases List.mem_append.mp he with hn | hi
  · exact nativeEdges_derived _ _ e hn
  · have hdf := (inverseEdges_mem hi).2
    rw [hdf] at hd
    exact absurd hd (by decide)

theorem countP_native_src_tgt (ss st us : List RawRecord) (g : Graph)
    (h : build ss st us = .ok g) (src tgt : String) :
    g.edges.countP (fun e => !e.derived && (e.srcId == src && e.tgtId == tgt)) =
      refCountFrom ss st us src tgt := by
  obtain ⟨_, _, hedges⟩ := build_ok_inv ss st us g h
  have hsome := build_some_ident ss st us g h
  rw [hedges, List.countP_append]
  have hinv0 : (inverseEdges (nativeEdges (taggedRecords ss st us)
      (buildNodes (taggedRecords ss st us)))).countP
      (fun e => !e.derived && (e.srcId == src && e.tgtId == tgt)) = 0 := by
    rw [List.countP_eq_zero]
    intro e he hp
    obtain ⟨hd, _⟩ := Bool.and_eq_true_iff.mp hp
    have hder := (inverseEdges_mem he).1
    rw [hder] at hd
    exact absurd hd (by decide)
  rw [hinv0, Nat.add_zero]
  unfold nativeEdges
  rw [List.countP_flatMap]
  unfold refCountFrom
  apply sum_map_congr_mem
  intro tr htr
  have hj : ∃ j, tr.2.ident = some j := by
    have h2 := hsome tr.2 (mem_tagged_snd htr)
    cases hid : tr.2.ident
    · rw [hid] at h2
      exact absurd h2 (by simp)
    · exact ⟨_, rfl⟩
  obtain ⟨j, hj⟩ := hj
  simp only [Function.comp_apply]
  by_cases hsrc : (tr.2.ident == some src) = true
  · rw [if_pos hsrc]
    rw [hj] at hsrc
    have hjs : j = src := by simpa using hsrc
    subst hjs
    unfold edgesOfTagged
    rw [List.countP_flatMap]
    unfold recordRefCount
    rw [List.countP_flatMap]
    apply sum_map_congr_mem
    intro av _
    simp only [Function.comp_apply]
    rw [List.countP_map]
    apply countP_congr_mem
    intro x _
    simp [hj]
  · rw [if_neg hsrc]
    unfold edgesOfTagged
    rw [List.countP_flatMap]
    apply List.sum_eq_zero
    intro y hy
    obtain ⟨av, hav, hye⟩ := List.mem_map.mp hy
    rw [← hye]
    simp only [Function.comp_apply]
    rw [List.countP_map, List.countP_eq_zero]
    intro x _ hp
    simp only [hj] at hp
    simp at hp
    apply hsrc
    rw [hj, hp.1]
    simp

/-- C3: for every graph containing exactly one seat node with a given
identifier, whose can-multi-session flag is false, carrying exactly two
active sessions, the checker emits exactly one multiple-active-sessions
finding for that seat, and every such finding names both active sessions. -/
theorem single_active_seat_rule (g : Graph) (seatId s1 s2 : String)
    (hcount : g.nodes.countP (keyEq .seat seatId) = 1)
    (hflag : ∀ n ∈ g.nodes, keyEq .seat seatId n = true →
      canMultiSession n = false)
    (hact : activeSessionsOn g seatId = [s1, s2]) :
    (check g).countP (isMultiActiveFindingFor seatId) = 1 ∧
    ∀ f ∈ check g, isMultiActiveFindingFor seatId f = true →
      s1 ∈ f.nodes ∧ s2 ∈ f.nodes := by
  constructor
  · have hD : (checkDangling g).countP (isMultiActiveFindingFor seatId) = 0 :=
      countP_catAnd_zero (by decide) (checkDangling_category g)
    have hA : (checkAsymmetric g).countP (isMultiActiveFindingFor seatId) = 0 :=
      countP_catAnd_zero (by decide) (checkAsymmetric_category g)
    have hO : (checkOrphanedUser g).countP (isMultiActiveFindingFor seatId) = 0 :=
      countP_catAnd_zero (by decide) (checkOrphanedUser_category g)
    have hMA : (checkMultiActive g).countP (isMultiActiveFindingFor seatId) = 1 := by
      unfold checkMultiActive
      rw [List.countP_map, List.countP_filter]
      trans (g.nodes.countP (fun n => keyEq .seat seatId n &&
        (!canMultiSession n &&
          decide (2 ≤ (activeSessionsOn g n.ident).length))))
      · apply countP_congr_mem
        intro n _
        simp only [Function.comp_apply, isMultiActiveFindingFor, catIs,
          multiActiveSeat, keyEq, List.head?_cons]
        cases h1 : (n.ident == seatId) <;>
          cases h2 : (n.type == EntityType.seat) <;>
          cases h3 : canMultiSession n <;>
          cases h4 : decide (2 ≤ (activeSessionsOn g n.ident).length) <;>
          simp [h1, h2, h3, h4]
      · obtain ⟨n0, hn0, hp0⟩ :=
          List.countP_pos_iff.mp
            (lt_of_lt_of_eq Nat.one_pos hcount.symm)
        have hq0 : (!canMultiSession n0 &&
            decide (2 ≤ (activeSessionsOn g n0.ident).length)) = true := by
          obtain ⟨_, hi0⟩ := (keyEq_true_iff _ _ _).mp hp0
          rw [hflag n0 hn0 hp0, hi0, hact]
          rfl
        exact countP_and_of_unique hcount hn0 hp0 hq0
    rw [check_countP_decompose, hD, hA, hMA, hO]
  · intro f hf hp
    unfold check at hf
    rcases List.mem_append.mp hf with hrest | hf4
    swap
    · have hcat := checkOrphanedUser_category g f hf4
      unfold isMultiActiveFindingFor at hp
      obtain ⟨h1, _⟩ := Bool.and_eq_true_iff.mp hp
      have := catIs_eq h1
      rw [hcat] at this
      exact absurd this (by decide)
    rcases List.mem_append.mp hrest with hrest2 | hf3
    swap
    · unfold checkMultiActive at hf3
      obtain ⟨n, hn, hfe⟩ := List.mem_map.mp hf3
      unfold isMultiActiveFindingFor at hp
      rw [← hfe] at hp ⊢
      obtain ⟨_, hhead⟩ := Bool.and_eq_true_iff.mp hp
      simp only [List.head?_cons] at hhead
      have hni : n.ident = seatId := by simpa using hhead
      simp only []
      rw [hni, hact]
      simp
    rcases List.mem_append.mp hrest2 with hf1 | hf2
    · have hcat := checkDangling_category g f hf1
      unfold isMultiActiveFindingFor at hp
      obtain ⟨h1, _⟩ := Bool.and_eq_true_iff.mp hp
      have := catIs_eq h1
      rw [hcat] at this
      exact absurd this (by decide)
    · have hcat := checkAsymmetric_category g f hf2
      unfold isMultiActiveFindingFor at hp
      obtain ⟨h1, _⟩ := Bool.and_eq_true_iff.mp hp
      have := catIs_eq h1
      rw [hcat] at this
      exact absurd this (by decide)

/-- Witness for C3: the seat "seat1" with multi-session disabled and two
active sessions "sA" and "sB" yields exactly one finding naming both. -/
theorem single_active_seat_rule_witness :
    (check wMAGraph).countP (isMultiActiveFindingFor "seat1") = 1 ∧
    ∀ f ∈ check wMAGraph, isMultiActiveFindingFor "seat1" f = true →
      "sA" ∈ f.nodes ∧ "sB" ∈ f.nodes :=
  single_active_seat_rule wMAGraph "seat1" "sA" "sB" (by decide) (by decide)
    (by decide)

/-- C4: for every input containing a seat record listing session S among
its sessions (once, with no other cross references between the two), where
no record of S lists the seat back, the checker on the built graph emits
exactly one asymmetric-relation finding referencing both S and the seat. -/
theorem symmetry_detection (ss st us : List RawRecord) (g : Graph)
    (seatId S : String) (st0 : RawRecord) (v : AttrValue)
    (h : build ss st us = .ok g)
    (hst0 : st0 ∈ st) (hstid : st0.ident = some seatId)
    (hattr : ("sessions", v) ∈ st0.attrs) (hS : S ∈ v.refIds)
    (hsess : ss.any (fun r => r.ident == some S) = true)
    (hne : seatId ≠ S)
    (H1 : refCountFrom ss st us seatId S = 1)
    (H2 : refCountFrom ss st us S seatId = 0) :
    (check g).countP (isAsymFindingBoth seatId S) = 1 := by
  have hnoback : ∀ f ∈ g.edges,
      ¬((!f.derived && (f.srcId == S && f.tgtId == seatId)) = true) := by
    have h0 : g.edges.countP
        (fun e => !e.derived && (e.srcId == S && e.tgtId == seatId)) = 0 :=
      (countP_native_src_tgt ss st us g h S seatId).trans H2
    exact List.countP_eq_zero.mp h0
  have htr : ((EntityType.seat, st0) : EntityType × RawRecord) ∈
      taggedRecords ss st us :=
    List.mem_append.mpr (Or.inl (List.mem_append.mpr (Or.inr
      (List.mem_map.mpr ⟨st0, hst0, rfl⟩))))
  obtain ⟨e0, he0, hd0, hsrcT0, hsrcI0, hattr0, htgtT0, htgtI0, hdang0⟩ :=
    edge_exists_of_tagged ss st us g h (.seat, st0) htr seatId "sessions" v S
      hstid hattr hS
  have hsrcT0' : e0.srcType = EntityType.seat := hsrcT0
  have htgtT0' : e0.tgtType = EntityType.session := htgtT0
  have hdang0' : e0.dangling =
      !(g.nodes.any (keyEq EntityType.session S)) := hdang0
  have hanyS : g.nodes.any (keyEq EntityType.session S) = true := by
    have hc := build_nodes_count ss st us g h EntityType.session S
    simp only [collectionOf] at hc
    rw [if_pos hsess] at hc
    obtain ⟨n, hn, hkn⟩ :=
      List.countP_pos_iff.mp (lt_of_lt_of_eq Nat.one_pos hc.symm)
    exact List.any_eq_true.mpr ⟨n, hn, hkn⟩
  have hdangF : e0.dangling = false := by
    rw [hdang0', hanyS]
    rfl
  have hback0 : (g.edges.any (fun f =>
      !f.derived && f.srcType == e0.tgtType && f.srcId == e0.tgtId &&
      f.tgtType == e0.srcType && f.tgtId == e0.srcId)) = false := by
    rw [List.any_eq_false]
    intro f hf hp
    obtain ⟨h4, h5⟩ := Bool.and_eq_true_iff.mp hp
    obtain ⟨h3, _⟩ := Bool.and_eq_true_iff.mp h4
    obtain ⟨h2, h3b⟩ := Bool.and_eq_true_iff.mp h3
    obtain ⟨h1, _⟩ := Bool.and_eq_true_iff.mp h2
    rw [htgtI0] at h3b
    rw [hsrcI0] at h5
    apply hnoback f hf
    rw [h1, h3b, h5]
    rfl
  have hq0 : asymmetricEdge g e0 = true := by
    unfold asymmetricEdge
    rw [hback0, hd0, hdangF, hsrcT0', htgtT0']
    decide
  have hp0 : (!e0.derived && (e0.srcId == seatId && e0.tgtId == S)) = true := by
    rw [hd0, hsrcI0, htgtI0]
    simp
  have hpcount : g.edges.countP
      (fun e => !e.derived && (e.srcId == seatId && e.tgtId == S)) = 1 :=
    (countP_native_src_tgt ss st us g h seatId S).trans H1
  have hD : (checkDangling g).countP (isAsymFindingBoth seatId S) = 0 :=
    countP_catAnd_zero (by decide) (checkDangling_category g)
  have hMA : (checkMultiActive g).countP (isAsymFindingBoth seatId S) = 0 :=
    countP_catAnd_zero (by decide) (checkMultiActive_category g)
  have hO : (checkOrphanedUser g).countP (isAsymFindingBoth seatId S) = 0 :=
    countP_catAnd_zero (by decide) (checkOrphanedUser_category g)
  have hAsym : (checkAsymmetric g).countP (isAsymFindingBoth seatId S) = 1 := by
    unfold checkAsymmetric
    rw [List.countP_map, List.countP_filter]
    trans (g.edges.countP (fun e =>
      (!e.derived && (e.srcId == seatId && e.tgtId == S)) &&
        asymmetricEdge g e))
    · apply countP_congr_mem
      intro e he
      apply bool_eq_of_iff
      constructor
      · intro hl
        obtain ⟨hi, ha⟩ := Bool.and_eq_true_iff.mp hl
        have hi' : (seatId = e.srcId ∨ seatId = e.tgtId) ∧
            (S = e.srcId ∨ S = e.tgtId) := by
          have h' := hi
          simp [isAsymFindingBoth, catIs] at h'
          exact h'
        obtain ⟨hm1', hm2'⟩ := hi'
        have hder : (!e.derived) = true := by
          unfold asymmetricEdge at ha
          obtain ⟨ha1, _⟩ := Bool.and_eq_true_iff.mp ha
          obtain ⟨ha2, _⟩ := Bool.and_eq_true_iff.mp ha1
          obtain ⟨ha3, _⟩ := Bool.and_eq_true_iff.mp ha2
          exact ha3
        rcases hm1' with hs1 | hs1 <;> rcases hm2' with hs2 | hs2
        · exact absurd (hs1.trans hs2.symm) hne
        · rw [← hs1, ← hs2]
          simp [hder, ha]
        · exfalso
          apply hnoback e he
          rw [← hs1, ← hs2]
          simp [hder]
        · exact absurd (hs1.trans hs2.symm) hne
      · intro hr
        obtain ⟨hp, ha⟩ := Bool.and_eq_true_iff.mp hr
        obtain ⟨hd, hrest⟩ := Bool.and_eq_true_iff.mp hp
        obtain ⟨hsi, hti⟩ := Bool.and_eq_true_iff.mp hrest
        have hsi' : e.srcId = seatId := by simpa using hsi
        have hti' : e.tgtId = S := by simpa using hti
        unfold isAsymFindingBoth catIs
        simp [hsi', hti', hd, ha]
    · exact countP_and_of_unique hpcount he0 hp0 hq0
  rw [check_countP_decompose, hD, hAsym, hMA, hO]

/-- Witness for C4: seat "seatY" lists session "sX", which does not list it
back; exactly one asymmetric finding references both. -/
theorem symmetry_detection_witness :
    (check wAsymGraph).countP (isAsymFindingBoth "seatY" "sX") = 1 :=
  symmetry_detection [wAsymSession] [wAsymSeat] [] wAsymGraph "seatY" "sX"
    wAsymSeat (.refs ["sX"]) rfl (by decide) rfl (by decide) (by decide)
    (by decide) (by decide) (by decide) (by decide)

/-- C5: for every input containing a session record whose seat reference is
"seat0" (its only reference to "seat0") while no seat with identifier
"seat0" was fetched, the built graph has a dangling edge from that session
to "seat0", and the checker emits exactly one dangling-reference finding
identifying the referring session and the missing seat. -/
theorem dangling_reference_scenario (ss st us : List RawRecord) (g : Graph)
    (sid : String) (sess0 : RawRecord) (v : AttrValue)
    (h : build ss st us = .ok g)
    (hsess0 : sess0 ∈ ss) (hsid : sess0.ident = some sid)
    (hattr : ("seat", v) ∈ sess0.attrs) (hS : "seat0" ∈ v.refIds)
    (hnoseat : st.any (fun r => r.ident == some "seat0") = false)
    (H1 : refCountFrom ss st us sid "seat0" = 1) :
    (∃ e, e ∈ g.edges ∧ e.srcType = .session ∧ e.srcId = sid ∧
      e.attr = "seat" ∧ e.tgtId = "seat0" ∧ e.dangling = true) ∧
    (check g).countP (isDanglingFindingFor sid "seat0") = 1 := by
  have htr : ((EntityType.session, sess0) : EntityType × RawRecord) ∈
      taggedRecords ss st us :=
    List.mem_append.mpr (Or.inl (List.mem_append.mpr (Or.inl
      (List.mem_map.mpr ⟨sess0, hsess0, rfl⟩))))
  obtain ⟨e0, he0, hd0, hsrcT0, hsrcI0, hattr0, htgtT0, htgtI0, hdang0⟩ :=
    edge_exists_of_tagged ss st us g h (.session, sess0) htr sid "seat" v
      "seat0" hsid hattr hS
  have hsrcT0' : e0.srcType = EntityType.session := hsrcT0
  have hdang0' : e0.dangling =
      !(g.nodes.any (keyEq EntityType.seat "seat0")) := hdang0
  have hnoSeatNode : g.nodes.any (keyEq EntityType.seat "seat0") = false := by
    have hc := build_nodes_count ss st us g h EntityType.seat "seat0"
    simp only [collectionOf] at hc
    rw [if_neg (by rw [hnoseat]; exact Bool.false_ne_true)] at hc
    rw [List.any_eq_false]
    intro n hn hkn
    have hpos : 0 < g.nodes.countP (keyEq EntityType.seat "seat0") :=
      List.countP_pos_iff.mpr ⟨n, hn, hkn⟩
    rw [hc] at hpos
    exact absurd hpos (by decide)
  have hdangT : e0.dangling = true := by
    rw [hdang0', hnoSeatNode]
    rfl
  have hp0 : (!e0.derived && (e0.srcId == sid && e0.tgtId == "seat0")) = true := by
    rw [hd0, hsrcI0, htgtI0]
    simp
  have hpcount : g.edges.countP
      (fun e => !e.derived && (e.srcId == sid && e.tgtId == "seat0")) = 1 :=
    (countP_native_src_tgt ss st us g h sid "seat0").trans H1
  refine ⟨⟨e0, he0, hsrcT0', hsrcI0, hattr0, htgtI0, hdangT⟩, ?_⟩
  have hA : (checkAsymmetric g).countP (isDanglingFindingFor sid "seat0") = 0 :=
    countP_catAnd_zero (by decide) (checkAsymmetric_category g)
  have hMA : (checkMultiActive g).countP (isDanglingFindingFor sid "seat0") = 0 :=
    countP_catAnd_zero (by decide) (checkMultiActive_category g)
  have hO : (checkOrphanedUser g).countP (isDanglingFindingFor sid "seat0") = 0 :=
    countP_catAnd_zero (by decide) (checkOrphanedUser_category g)
  have hD : (checkDangling g).countP (isDanglingFindingFor sid "seat0") = 1 := by
    unfold checkDangling
    rw [List.countP_map, List.countP_filter]
    trans (g.edges.countP (fun e =>
      (!e.derived && (e.srcId == sid && e.tgtId == "seat0")) && e.dangling))
    · apply countP_congr_mem
      intro e he
      apply bool_eq_of_iff
      constructor
      · intro hl
        have hl' : (e.srcId = sid ∧ e.tgtId = "seat0") ∧ e.dangling = true := by
          have h' := hl
          simp [isDanglingFindingFor, catIs] at h'
          exact h'
        obtain ⟨⟨hs1, hs2⟩, hdang⟩ := hl'
        have hder := edges_dangling_not_derived ss st us g h e he hdang
        rw [hs1, hs2, hder, hdang]
        simp
      · intro hr
        obtain ⟨hp, hdang⟩ := Bool.and_eq_true_iff.mp hr
        obtain ⟨_, hrest⟩ := Bool.and_eq_true_iff.mp hp
        obtain ⟨hsi, hti⟩ := Bool.and_eq_true_iff.mp hrest
        have hsi' : e.srcId = sid := by simpa using hsi
        have hti' : e.tgtId = "seat0" := by simpa using hti
        unfold isDanglingFindingFor catIs
        simp [hsi', hti', hdang]
    · exact countP_and_of_unique hpcount he0 hp0 hdangT
  rw [check_countP_decompose, hD, hA, hMA, hO]

theorem fetchOne_ident (o : RemoteObject) : (fetchOne o).ident = some o.id := by
  unfold fetchOne
  split <;> rfl

theorem buildNodes_of_nodup_keys :
    ∀ (tagged : List (EntityType × RawRecord)) (acc : List Node),
      (∀ tr ∈ tagged, acc.any (keyEq tr.1 (tr.2.ident.getD "")) = false) →
      List.Pairwise (fun a b =>
        ((a.1, a.2.ident.getD "") : EntityType × String) ≠
          (b.1, b.2.ident.getD "")) tagged →
      tagged.foldl (fun ns tr => upsertNode ns (nodeOfTagged tr)) acc =
        acc ++ tagged.map nodeOfTagged
  | [], acc, _, _ => by simp
  | tr :: rest, acc, hacc, hpw => by
    rw [List.foldl_cons]
    have hx : acc.any (keyEq (nodeOfTagged tr).type (nodeOfTagged tr).ident) =
        false := hacc tr (List.mem_cons_self tr rest)
    have hup : upsertNode acc (nodeOfTagged tr) = acc ++ [nodeOfTagged tr] := by
      unfold upsertNode
      rw [if_neg (by simp [hx])]
    rw [hup]
    obtain ⟨hhd, htl⟩ := List.pairwise_cons.mp hpw
    have hacc' : ∀ tr' ∈ rest, (acc ++ [nodeOfTagged tr]).any
        (keyEq tr'.1 (tr'.2.ident.getD "")) = false := by
      intro tr' htr'
      rw [List.any_append, hacc tr' (List.mem_cons_of_mem tr htr')]
      simp only [Bool.false_or, List.any_cons, List.any_nil, Bool.or_false]
      rw [keyEq_nodeOfTagged]
      apply Bool.eq_false_iff.mpr
      intro hcontra
      obtain ⟨h1, h2⟩ := Bool.and_eq_true_iff.mp hcontra
      exact hhd tr' htr' (by rw [eq_of_beq h1, eq_of_beq h2])
    rw [buildNodes_of_nodup_keys rest (acc ++ [nodeOfTagged tr]) hacc' htl]
    simp

/-- C8: a fetch of three session objects of which exactly one fails its
detail query completes without a fatal abort, yielding a graph with three
session nodes — one bare (identifier only, no attributes) and two fully
populated — together with exactly one PartialFetch warning recorded
alongside the findings. -/
theorem partial_fetch_resilience (o1 o2 o3 : RemoteObject) (svc : Service)
    (hsvc : svc = ⟨[o1, o2, o3], [], [], false, false⟩)
    (hids : o1.id ≠ o2.id ∧ o1.id ≠ o3.id ∧ o2.id ≠ o3.id)
    (hfail : ([o1, o2, o3].countP (fun o => o.detailFails)) = 1)
    (hprops : ∀ o ∈ [o1, o2, o3], o.detailFails = false → o.props ≠ []) :
    ∃ g fs ws, runInspection svc = .ok (g, fs, ws) ∧
      g.nodes.length = 3 ∧
      g.nodes.countP (fun n => n.type == .session && n.attrs.isEmpty) = 1 ∧
      g.nodes.countP (fun n => n.type == .session && !n.attrs.isEmpty) = 2 ∧
      ws.countP isPartialFetch = 1 := by
  subst hsvc
  have hguard : (taggedRecords ([o1, o2, o3].map fetchOne) [] []).any
      (fun tr => tr.2.ident.isNone) = false := by
    rw [List.any_eq_false]
    intro tr htr
    unfold taggedRecords at htr
    simp only [List.map_nil, List.append_nil] at htr
    obtain ⟨r, hr, hre⟩ := List.mem_map.mp htr
    obtain ⟨o, _, hro⟩ := List.mem_map.mp hr
    rw [← hre]
    show ¬(r.ident.isNone = true)
    rw [← hro, fetchOne_ident o]
    simp
  have hbuild : build ([o1, o2, o3].map fetchOne) [] [] = .ok
      (builtGraph ([o1, o2, o3].map fetchOne) [] []) := by
    unfold build
    rw [if_neg (by simp only [hguard]; decide)]
  have hkeys : List.Pairwise (fun a b =>
      ((a.1, a.2.ident.getD "") : EntityType × String) ≠
        (b.1, b.2.ident.getD ""))
      (taggedRecords ([o1, o2, o3].map fetchOne) [] []) := by
    unfold taggedRecords
    simp only [List.map_nil, List.append_nil, List.map_cons, List.map_map]
    simp [List.pairwise_cons, Function.comp, fetchOne_ident, hids.1,
      hids.2.1, hids.2.2]
  have hnodes : buildNodes (taggedRecords ([o1, o2, o3].map fetchOne) [] []) =
      (taggedRecords ([o1, o2, o3].map fetchOne) [] []).map nodeOfTagged := by
    have hb := buildNodes_of_nodup_keys
      (taggedRecords ([o1, o2, o3].map fetchOne) [] []) []
      (fun tr _ => rfl) hkeys
    simpa [buildNodes] using hb
  have hfetch : fetchAll ⟨[o1, o2, o3], [], [], false, false⟩ = .ok
      ([o1, o2, o3].map fetchOne, [], [],
       fetchWarnings [o1, o2, o3] ++ fetchWarnings [] ++ fetchWarnings []) :=
    rfl
  have hgn : (builtGraph ([o1, o2, o3].map fetchOne) [] []).nodes =
      (taggedRecords ([o1, o2, o3].map fetchOne) [] []).map nodeOfTagged :=
    hnodes
  have hrun : runInspection ⟨[o1, o2, o3], [], [], false, false⟩ = .ok
      (builtGraph ([o1, o2, o3].map fetchOne) [] [],
       check (builtGraph ([o1, o2, o3].map fetchOne) [] []),
       fetchWarnings [o1, o2, o3] ++ fetchWarnings [] ++ fetchWarnings []) := by
    unfold runInspection
    simp only [hfetch, hbuild]
  refine ⟨builtGraph ([o1, o2, o3].map fetchOne) [] [],
    check (builtGraph ([o1, o2, o3].map fetchOne) [] []),
    fetchWarnings [o1, o2, o3] ++ fetchWarnings [] ++ fetchWarnings [],
    hrun, ?_, ?_, ?_, ?_⟩
  · rw [hgn]
    unfold taggedRecords
    simp
  · rw [hgn]
    unfold taggedRecords
    simp only [List.map_nil, List.append_nil]
    rw [List.countP_map, List.countP_map, List.countP_map]
    trans ([o1, o2, o3].countP (fun o => o.detailFails))
    · apply countP_congr_mem
      intro o ho
      cases hf : o.detailFails
      · have hpne := hprops o ho hf
        cases hp : o.props
        · exact absurd hp hpne
        · simp [Function.comp, nodeOfTagged, fetchOne, hf, hp]
      · simp [Function.comp, nodeOfTagged, fetchOne, hf]
    · exact hfail
  · rw [hgn]
    unfold taggedRecords
    simp only [List.map_nil, List.append_nil]
    rw [List.countP_map, List.countP_map, List.countP_map]
    trans ([o1, o2, o3].countP (fun o => !o.detailFails))
    · apply countP_congr_mem
      intro o ho
      cases hf : o.detailFails
      · have hpne := hprops o ho hf
        cases hp : o.props
        · exact absurd hp hpne
        · simp [Function.comp, nodeOfTagged, fetchOne, hf, hp]
      · simp [Function.comp, nodeOfTagged, fetchOne, hf]
    · have hlen := List.length_eq_countP_add_countP
        (fun o => o.detailFails) [o1, o2, o3]
      rw [hfail] at hlen
      have hsame : [o1, o2, o3].countP (fun o => !o.detailFails) =
          [o1, o2, o3].countP (fun o => decide (¬o.detailFails = true)) := by
        apply countP_congr_mem
        intro o _
        cases hf : o.detailFails <;> simp [hf]
      rw [hsame]
      simp only [List.length_cons, List.length_nil] at hlen
      omega
  · show (fetchWarnings [o1, o2, o3] ++ fetchWarnings [] ++
        fetchWarnings []).countP isPartialFetch = 1
    rw [List.countP_append, List.countP_append]
    unfold fetchWarnings
    simp only [List.flatMap_nil, List.countP_nil, Nat.add_zero]
    rw [List.countP_flatMap]
    trans (([o1, o2, o3].map (fun o => if o.detailFails then 1 else 0)).sum)
    · apply sum_map_congr_mem
      intro o _
      cases hf : o.detailFails <;>
        simp [Function.comp, isPartialFetch, hf]
    · rw [sum_map_ite_countP, hfail]

/-- Witness for C8: the three-session service with one failing detail query
runs to completion with the promised graph shape and warning count. -/
theorem partial_fetch_resilience_witness :
    ∃ g fs ws, runInspection wService = .ok (g, fs, ws) ∧
      g.nodes.length = 3 ∧
      g.nodes.countP (fun n => n.type == .session && n.attrs.isEmpty) = 1 ∧
      g.nodes.countP (fun n => n.type == .session && !n.attrs.isEmpty) = 2 ∧
      ws.countP isPartialFetch = 1 :=
  partial_fetch_resilience wObjA wObjB wObjC wService rfl (by decide)
    (by decide) (by decide)

/-- Witness for C5: the session "s1" whose seat reference "seat0" resolves
to no fetched seat yields a dangling edge and exactly one dangling finding. -/
theorem dangling_reference_scenario_witness :
    (∃ e, e ∈ wGraph.edges ∧ e.srcType = .session ∧ e.srcId = "s1" ∧
      e.attr = "seat" ∧ e.tgtId = "seat0" ∧ e.dangling = true) ∧
    (check wGraph).countP (isDanglingFindingFor "s1" "seat0") = 1 :=
  dangling_reference_scenario [wSession] [] [] wGraph "s1" wSession
    (.ref "seat0") rfl (by decide) rfl (by decide) (by decide) rfl (by decide)

end SeatInspect
